import Mathlib

/-!
Shallow embedding of the swww daemon core (src/daemon/src/main.rs and
src/daemon/src/animations/mod.rs).

Conventions:
* machine integers and `std::time::Duration` values are modelled as `Nat`
  (durations in microseconds; `Duration::saturating_sub` is `Nat` truncated
  subtraction, which saturates at zero exactly like the source operation);
* `Instant::now()`/`Instant::elapsed()` pairs are modelled by an explicit
  `elapsed` field holding the time elapsed since the last `updt_time`
  (`updt_time` resets it to zero);
* fallible operations return `Option`;
* code of the repository that lives outside the two provided files
  (`wallpaper.rs`, `transitions.rs`, the `utils` crate) is modelled from the
  spec; each such definition carries a doc comment starting with
  `Modelled from the spec:`.
-/

open List

/-- An RGB color, as the `[u8; 3]` used by `Clear`. -/
abbrev Rgb := Nat × Nat × Nat

/-- Modelled from the spec: the current background descriptor of a wallpaper,
either a solid color or an image path (`utils::ipc::BgImg`). -/
inductive BgImg where
  | color (c : Rgb)
  | img (path : String)
deriving DecidableEq

/-- A compressed animation frame; its bytes are opaque to the daemon core, so
we model a frame by an abstract identifier. -/
abbrev Frame := Nat

/-- Modelled from the spec: `utils::ipc::Animation`, a decoded sequence of
(compressed frame, per-frame duration) pairs. Durations in microseconds. -/
structure Animation where
  animation : List (Frame × Nat)
deriving DecidableEq

/-- Modelled from the spec: the per-output wallpaper state (`wallpaper.rs` is
not among the provided sources). Only the attributes the provided sources
interact with are kept:
* `name`: the optional human name reported by the compositor (`has_name`);
* `configured`: the configure-handshake flag read by `Ping`;
* `dims`: the logical dimensions returned by `get_dimensions`;
* `bg`: the background descriptor written by `set_img_info`;
* `canvas`: the writable canvas, as a list of pixels (`clear` fills it);
* `drawReady`: the `is_draw_ready` flag;
* `decodeOk`: abstraction of whether `canvas_change` combined with
  `Decompressor::decompress` succeeds on this wallpaper for the current
  animation (the decoder itself is an external collaborator);
* `animTokenValid`: abstraction of `has_animation_id` for the token held by
  the running animation worker;
* `drawn`: how many frames have been successfully written into the canvas
  (bookkeeping for "this wallpaper was drawn"). -/
structure Wallpaper where
  name : Option String
  configured : Bool
  dims : Nat × Nat
  bg : BgImg
  canvas : List Rgb
  drawReady : Bool
  decodeOk : Bool
  animTokenValid : Bool
  drawn : Nat
deriving DecidableEq

instance : Inhabited Wallpaper where
  default :=
    { name := none, configured := false, dims := (0, 0), bg := BgImg.color (0, 0, 0)
      canvas := [], drawReady := false, decodeOk := false, animTokenValid := false
      drawn := 0 }

/-- `Vec::swap_remove(j)`: replace the element at index `j` with the last
element and pop the last element. -/
def swapRemove (l : List α) (j : Nat) : List α :=
  match l.getLast? with
  | none => []
  | some a => (l.set j a).dropLast

theorem swapRemove_length (l : List α) (j : Nat) :
    (swapRemove l j).length = l.length - 1 := by
  unfold swapRemove
  match h : l.getLast? with
  | none =>
      have : l = [] := List.getLast?_eq_none_iff.mp h
      simp [this]
  | some a => simp

theorem swapRemove_cons_succ (x : α) (l : List α) (j : Nat) (h : j < l.length) :
    swapRemove (x :: l) (j + 1) = x :: swapRemove l j := by
  have hne : l ≠ [] := by
    intro hl; rw [hl] at h; simp at h
  unfold swapRemove
  match hg : l.getLast? with
  | none => exact absurd (List.getLast?_eq_none_iff.mp hg) hne
  | some a =>
      have hg' : (x :: l).getLast? = some a := by
        rw [List.getLast?_cons, hg]; rfl
      rw [hg']
      simp only [List.set_cons_succ]
      have : l.set j a ≠ [] := by
        have hpos : 0 < (l.set j a).length := by
          rw [List.length_set]; omega
        exact List.length_pos.mp hpos
      rw [List.dropLast_cons_of_ne_nil this]

theorem swapRemove_take (l : List α) (j : Nat) (h : j < l.length) :
    (swapRemove l j).take j = l.take j := by
  induction j generalizing l with
  | zero => simp
  | succ j ih =>
      match l with
      | [] => simp at h
      | x :: l =>
          have h' : j < l.length := by simpa using h
          rw [swapRemove_cons_succ x l j h']
          simp [List.take_succ_cons, ih l h']

theorem swapRemove_drop_perm (l : List α) (j : Nat) (h : j < l.length) :
    l.drop j ~ l.get ⟨j, h⟩ :: (swapRemove l j).drop j := by
  induction j generalizing l with
  | zero =>
      match l with
      | [] => simp at h
      | x :: t =>
          simp only [List.drop_zero, List.get]
          match ht : t.getLast? with
          | none =>
              have : t = [] := List.getLast?_eq_none_iff.mp ht
              subst this
              show [x] ~ x :: swapRemove [x] 0
              unfold swapRemove
              simp
          | some a =>
              have htne : t ≠ [] := by
                intro h0; rw [h0] at ht; simp at ht
              have : swapRemove (x :: t) 0 = a :: t.dropLast := by
                unfold swapRemove
                have hg' : (x :: t).getLast? = some a := by
                  rw [List.getLast?_cons, ht]; rfl
                rw [hg']
                simp only [List.set_cons_zero]
                exact List.dropLast_cons_of_ne_nil htne
              rw [this]
              refine List.Perm.cons x ?_
              have hlast : t.getLast htne = a := by
                have := List.getLast?_eq_getLast t htne
                rw [ht] at this
                exact (Option.some_inj.mp this).symm
              calc t = t.dropLast ++ [t.getLast htne] :=
                      (List.dropLast_concat_getLast htne).symm
                _ = t.dropLast ++ [a] := by rw [hlast]
                _ ~ a :: t.dropLast := List.perm_append_singleton a t.dropLast
  | succ j ih =>
      match l with
      | [] => simp at h
      | x :: t =>
          have h' : j < t.length := by simpa using h
          rw [swapRemove_cons_succ x t j h']
          simp only [List.drop_succ_cons, List.get]
          exact ih t h'

/-- The in-place pruning loop pattern shared by `ImageAnimator::frame`, the
animation worker thread, and the transition-animator loop of `Daemon::draw`:
walk the list with a cursor `j`; at each position apply `f`, which either
replaces the element (`some`, cursor advances) or drops it (`swap_remove`
without advancing the cursor). `f` additionally emits side outputs and a
boolean flag, which are concatenated respectively or-ed. The `fuel` argument
makes the recursion structural; `fuel = l.length` always suffices. -/
def sweep (f : α → Option α × List β × Bool) : Nat → Nat → List α → List α × List β × Bool
  | 0, _, l => (l, [], false)
  | fuel + 1, j, l =>
    if h : j < l.length then
      let p := f (l.get ⟨j, h⟩)
      match p.1 with
      | some a =>
        let r := sweep f fuel (j + 1) (l.set j a)
        (r.1, p.2.1 ++ r.2.1, p.2.2 || r.2.2)
      | none =>
        let r := sweep f fuel j (swapRemove l j)
        (r.1, p.2.1 ++ r.2.1, p.2.2 || r.2.2)
    else (l, [], false)

theorem perm_any_eq {l₁ l₂ : List α} (h : l₁ ~ l₂) (p : α → Bool) :
    l₁.any p = l₂.any p := by
  induction h with
  | nil => rfl
  | cons a _ ih => simp [List.any_cons, ih]
  | swap a b l =>
      simp only [List.any_cons]
      cases p a <;> cases p b <;> simp
  | trans _ _ ih₁ ih₂ => exact ih₁.trans ih₂

/-- Every element of the list is visited exactly once by the swap-remove loop:
up to reordering, the surviving elements are the `f`-kept images of the
elements from the cursor onward (prefixed by the already-visited prefix), the
emitted outputs are the concatenation of the per-element emissions, and the
flag is the disjunction of the per-element flags. -/
theorem sweep_spec (f : α → Option α × List β × Bool) (fuel j : Nat) (l : List α)
    (hfuel : l.length - j ≤ fuel) :
    (sweep f fuel j l).1 ~ l.take j ++ (l.drop j).filterMap (fun a => (f a).1)
    ∧ (sweep f fuel j l).2.1 ~ (l.drop j).flatMap (fun a => (f a).2.1)
    ∧ (sweep f fuel j l).2.2 = (l.drop j).any (fun a => (f a).2.2) := by
  induction fuel generalizing j l with
  | zero =>
      have hle : l.length ≤ j := by omega
      rw [List.take_of_length_le hle, List.drop_eq_nil_of_le hle]
      refine ⟨?_, ?_, ?_⟩ <;> simp [sweep]
  | succ fuel ih =>
      by_cases h : j < l.length
      · have hd : l.drop j = l.get ⟨j, h⟩ :: l.drop (j + 1) := by
          rw [List.get_eq_getElem]
          exact List.drop_eq_getElem_cons h
        rcases hp : (f (l.get ⟨j, h⟩)).1 with _ | a
        · -- element dropped by swap_remove
          have hlen : (swapRemove l j).length = l.length - 1 := swapRemove_length l j
          have hfuel' : (swapRemove l j).length - j ≤ fuel := by omega
          obtain ⟨ih1, ih2, ih3⟩ := ih j (swapRemove l j) hfuel'
          have hdp : l.drop j ~ l.get ⟨j, h⟩ :: (swapRemove l j).drop j :=
            swapRemove_drop_perm l j h
          have heval : sweep f (fuel + 1) j l =
              ((sweep f fuel j (swapRemove l j)).1,
               (f (l.get ⟨j, h⟩)).2.1 ++ (sweep f fuel j (swapRemove l j)).2.1,
               (f (l.get ⟨j, h⟩)).2.2 || (sweep f fuel j (swapRemove l j)).2.2) := by
            simp only [sweep, dif_pos h, hp]
          rw [heval]
          refine ⟨?_, ?_, ?_⟩
          · refine ih1.trans ?_
            rw [swapRemove_take l j h]
            refine List.Perm.append_left _ ?_
            refine ((hdp.filterMap (fun a => (f a).1)).trans ?_).symm
            rw [List.filterMap_cons, hp]
          · refine (List.Perm.append_left _ ih2).trans ?_
            have hflat : (l.drop j).flatMap (fun a => (f a).2.1)
                ~ (f (l.get ⟨j, h⟩)).2.1
                  ++ ((swapRemove l j).drop j).flatMap (fun a => (f a).2.1) := by
              have := hdp.flatMap_right (fun a => (f a).2.1)
              rwa [List.flatMap_cons] at this
            exact hflat.symm
          · show ((f (l.get ⟨j, h⟩)).2.2 || (sweep f fuel j (swapRemove l j)).2.2)
                = (l.drop j).any (fun a => (f a).2.2)
            rw [ih3, perm_any_eq hdp (fun a => (f a).2.2), List.any_cons]
        · -- element kept (replaced by `a`)
          have hfuel' : (l.set j a).length - (j + 1) ≤ fuel := by
            rw [List.length_set]; omega
          obtain ⟨ih1, ih2, ih3⟩ := ih (j + 1) (l.set j a) hfuel'
          have ht1 : (l.set j a).take (j + 1) = l.take j ++ [a] := by
            rw [List.take_succ, List.set_take,
                List.set_eq_of_length_le (by simp [List.length_take]),
                List.getElem?_set_self h]
            rfl
          have ht2 : (l.set j a).drop (j + 1) = l.drop (j + 1) := by
            rw [List.drop_set, if_pos (by omega)]
          have heval : sweep f (fuel + 1) j l =
              ((sweep f fuel (j + 1) (l.set j a)).1,
               (f (l.get ⟨j, h⟩)).2.1 ++ (sweep f fuel (j + 1) (l.set j a)).2.1,
               (f (l.get ⟨j, h⟩)).2.2 || (sweep f fuel (j + 1) (l.set j a)).2.2) := by
            simp only [sweep, dif_pos h, hp]
          rw [heval]
          refine ⟨?_, ?_, ?_⟩
          · refine ih1.trans ?_
            rw [ht1, ht2, hd, List.filterMap_cons, hp, List.append_assoc]
            exact List.Perm.refl _
          · refine (List.Perm.append_left _ (ht2 ▸ ih2)).trans ?_
            have : (l.drop j).flatMap (fun a => (f a).2.1)
                = (f (l.get ⟨j, h⟩)).2.1 ++ (l.drop (j + 1)).flatMap (fun a => (f a).2.1) := by
              rw [hd, List.flatMap_cons]
            rw [this]
          · show ((f (l.get ⟨j, h⟩)).2.2 || (sweep f fuel (j + 1) (l.set j a)).2.2)
                = (l.drop j).any (fun a => (f a).2.2)
            rw [ih3, ht2, hd, List.any_cons]
      · have hle : l.length ≤ j := by omega
        rw [List.take_of_length_le hle, List.drop_eq_nil_of_le hle]
        refine ⟨?_, ?_, ?_⟩ <;> simp [sweep, h]

/-- Modelled from the spec: `wallpaper.canvas_change(|canvas| decompressor.decompress(frame, canvas, pixel_format))`.
`canvas_change` hands the closure a writable canvas slice (failing when no
writable buffer is available) and the decompressor writes the frame into it
(failing on a decode error). Both failure modes are abstracted into the
wallpaper's `decodeOk` field; a success is recorded by bumping the `drawn`
counter. The frame bytes themselves are opaque. -/
def canvasChange (w : Wallpaper) (_frame : Frame) : Option Wallpaper :=
  if w.decodeOk then some { w with drawn := w.drawn + 1 } else none

/-- Observable side effects of the animation code paths: token creation,
barrier rendezvous, the `failed to unpack frame` error log line on a decode
failure, buffer attach/damage, spin sleeps, and commits. -/
inductive AnimEvent where
  | createToken
  | barrierWait (tolerance : Nat)
  | decodeError
  | attachDamage (ws : List Wallpaper)
  | spinSleep (t : Nat)
  | commit (ws : List Wallpaper)
deriving DecidableEq

/-- One iteration of the wallpaper loop of `ImageAnimator::frame` (lines
148-158): decompress the current frame into the wallpaper's canvas; on
failure, log `failed to unpack frame` (modelled as a `decodeError` event)
and swap-remove the wallpaper. -/
def frameStep (fr : Frame) (w : Wallpaper) : Option Wallpaper × List AnimEvent × Bool :=
  match canvasChange w fr with
  | some w1 => (some w1, [], false)
  | none => (none, [AnimEvent.decodeError], false)

/-- One iteration of the wallpaper-pruning loop inside the animation worker
thread (lines 278-299): a wallpaper whose animation token is stale is
swap-removed silently; otherwise the frame is decompressed into its canvas
exactly as in `ImageAnimator::frame`, and on decode failure the
`failed to unpack frame` error is logged (a `decodeError` event) and the
wallpaper is swap-removed. -/
def workerPruneStep (fr : Frame) (w : Wallpaper) : Option Wallpaper × List AnimEvent × Bool :=
  if !w.animTokenValid then (none, [], false)
  else frameStep fr w

/-- `ImageAnimator` (src/daemon/src/animations/mod.rs, lines 117-123): `now`
is replaced by the `elapsed` time since the last `updt_time`; the
`Decompressor` scratch state carries no observable information and is
omitted. -/
structure ImageAnimator where
  elapsed : Nat
  wallpapers : List Wallpaper
  animation : Animation
  i : Nat
deriving DecidableEq

/-- `ImageAnimator::time_to_draw` (lines 126-130):
`animation.animation[i % len].1.saturating_sub(now.elapsed())`. The source
indexing panics when the sequence is empty; the model totalizes it with a
default, and every theorem about it assumes a non-empty sequence. -/
def ImageAnimator.timeToDraw (a : ImageAnimator) : Nat :=
  (a.animation.animation.getD (a.i % a.animation.animation.length) (0, 0)).2 - a.elapsed

/-- `ImageAnimator::updt_time` (lines 132-134): reset the wall-clock anchor. -/
def ImageAnimator.updtTime (a : ImageAnimator) : ImageAnimator :=
  { a with elapsed := 0 }

/-- `ImageAnimator::frame` (lines 136-162): pick the current frame, walk the
wallpaper list decompressing it into each canvas, swap-removing (and logging
an error for) every wallpaper whose decode fails, then advance the index by
one. -/
def ImageAnimator.frame (a : ImageAnimator) : ImageAnimator :=
  let fr := (a.animation.animation.getD (a.i % a.animation.animation.length) (0, 0)).1
  let r := sweep (frameStep fr) a.wallpapers.length 0 a.wallpapers
  { a with wallpapers := r.1, i := a.i + 1 }

/-- The log lines a `frame()` call emits (the emission component of the same
sweep that `ImageAnimator.frame` keeps the wallpapers of): one
`failed to unpack frame` error per failed decode. -/
def ImageAnimator.frameLogs (a : ImageAnimator) : List AnimEvent :=
  let fr := (a.animation.animation.getD (a.i % a.animation.animation.length) (0, 0)).1
  (sweep (frameStep fr) a.wallpapers.length 0 a.wallpapers).2.1

/-- Modelled from the spec: the `ipc::Transition` descriptor, reduced to the
fields the provided sources read. `fps` is the frame period
(`transition.fps`, a `Duration`, in microseconds). `Transition::execute`
lives in the missing `transitions.rs`; whether a single call reports
completion is abstracted as the oracle `execDone`. -/
structure IpcTransition where
  fps : Nat
  execDone : Bool
deriving DecidableEq

/-- Modelled from the spec: `utils::ipc::ImgReq` = shared-memory image bytes
(opaque), the image path, and the image dimensions. -/
structure ImgReq where
  path : String
  dim : Nat × Nat
deriving DecidableEq

/-- `TransitionAnimator` (lines 32-40): wallpapers, transition state (its
`fps` period and the abstract `execDone` oracle of the missing
`Transition::execute`), the source image, the optional trailing animation,
the wall-clock anchor (as `elapsed`), and the `over` flag. -/
structure TransitionAnimator where
  wallpapers : List Wallpaper
  fps : Nat
  execDone : Bool
  img : ImgReq
  animation : Option Animation
  elapsed : Nat
  over : Bool
deriving DecidableEq

/-- `TransitionAnimator::new` (lines 43-73): reject an empty wallpaper list;
label every wallpaper with the image path; then compare the image dimensions
against `wallpapers[0].get_dimensions()` only, rejecting on mismatch. -/
def TransitionAnimator.new (wallpapers : List Wallpaper) (transition : IpcTransition)
    (imgReq : ImgReq) (animation : Option Animation) : Option TransitionAnimator :=
  if wallpapers.isEmpty then none
  else
    let ws := wallpapers.map fun w => { w with bg := BgImg.img imgReq.path }
    let expect := (ws.headD default).dims
    if imgReq.dim ≠ expect then none
    else
      some { wallpapers := ws, fps := transition.fps, execDone := transition.execDone
             img := imgReq, animation := animation, elapsed := 0, over := false }

/-- `TransitionAnimator::time_to_draw` (lines 75-77):
`transition.fps.saturating_sub(now.elapsed())`. -/
def TransitionAnimator.timeToDraw (t : TransitionAnimator) : Nat :=
  t.fps - t.elapsed

/-- `TransitionAnimator::updt_time` (lines 79-81). -/
def TransitionAnimator.updtTime (t : TransitionAnimator) : TransitionAnimator :=
  { t with elapsed := 0 }

/-- `TransitionAnimator::frame` (lines 83-98): when not yet over, run one
`Transition::execute` step (abstracted by the `execDone` oracle) and report
`false`; once `over` is set, report `true`. -/
def TransitionAnimator.frame (t : TransitionAnimator) : TransitionAnimator × Bool :=
  if !t.over then ({ t with over := t.execDone }, false) else (t, true)

/-- `TransitionAnimator::into_image_animator` (lines 100-114): keep the
wallpapers, start the image animator at index 0 with a fresh wall-clock
anchor; `None` when the request carried no animation. -/
def TransitionAnimator.intoImageAnimator (t : TransitionAnimator) : Option ImageAnimator :=
  t.animation.map fun animation =>
    { elapsed := 0, wallpapers := t.wallpapers, animation := animation, i := 0 }

/-- Modelled from the spec: `wallpaper.has_name(n)`, the identity predicate on
the output's optional human name. -/
def Wallpaper.hasName (w : Wallpaper) (n : String) : Bool :=
  w.name == some n

/-- Modelled from the spec: `wallpaper.set_img_info(bg)` records the
background descriptor. -/
def Wallpaper.setImgInfo (w : Wallpaper) (bg : BgImg) : Wallpaper :=
  { w with bg := bg }

/-- Modelled from the spec: `wallpaper.clear(color)` fills the writable
canvas with the given color. -/
def Wallpaper.clear (w : Wallpaper) (c : Rgb) : Wallpaper :=
  { w with canvas := List.replicate w.canvas.length c }

/-- Modelled from the spec: the per-output snapshot `get_bg_info` returns for
`Query` (`utils::ipc::BgInfo`). -/
structure BgInfo where
  name : Option String
  dims : Nat × Nat
  bg : BgImg
deriving DecidableEq

/-- Modelled from the spec: `wallpaper.get_bg_info()`. -/
def Wallpaper.getBgInfo (w : Wallpaper) : BgInfo :=
  { name := w.name, dims := w.dims, bg := w.bg }

/-- `utils::ipc::Answer`, reduced to the variants the daemon sends. -/
inductive Answer where
  | ok
  | ping (configured : Bool)
  | bgInfo (infos : List BgInfo)
deriving DecidableEq

/-- `utils::ipc::RequestRecv`, the decoded client request enum. -/
inductive RequestRecv where
  | clear (color : Rgb) (outputs : List String)
  | ping
  | kill
  | query
  | img (transition : IpcTransition) (imgs : List ImgReq)
      (outputs : List (List String)) (animations : Option (List Animation))
deriving DecidableEq

/-- `struct Daemon` (src/daemon/src/main.rs, lines 55-62), keeping the fields
the modelled operations touch, plus the `EXIT` atomic flag that `Kill` sets
through `exit_daemon()`. -/
structure Daemon where
  wallpapers : List Wallpaper
  transitionAnimators : List TransitionAnimator
  imageAnimators : List ImageAnimator
  pollTime : Int
  exitRequested : Bool
deriving DecidableEq

/-- `Daemon::find_wallpapers_by_names` (lines 204-214): keep a wallpaper when
the name list is empty or some requested name matches. -/
def Daemon.findWallpapersByNames (d : Daemon) (names : List String) : List Wallpaper :=
  d.wallpapers.filter fun w => names.isEmpty || names.any fun n => w.hasName n

/-- `Daemon::stop_animations` (lines 277-294): drop the targeted wallpapers
from every animator, then drop animators left with no wallpapers. -/
def Daemon.stopAnimations (d : Daemon) (targets : List Wallpaper) : Daemon :=
  { d with
    transitionAnimators :=
      (d.transitionAnimators.map fun t =>
        { t with wallpapers :=
            t.wallpapers.filter fun w1 => !targets.any fun w2 => w1 == w2 }).filter
        fun t => !t.wallpapers.isEmpty
    imageAnimators :=
      (d.imageAnimators.map fun a =>
        { a with wallpapers :=
            a.wallpapers.filter fun w1 => !targets.any fun w2 => w1 == w2 }).filter
        fun a => !a.wallpapers.isEmpty }

/-- `Daemon::wallpapers_info` (lines 197-202). -/
def Daemon.wallpapersInfo (d : Daemon) : List BgInfo :=
  d.wallpapers.map Wallpaper.getBgInfo

/-- The `RequestRecv::Clear` arm of `Daemon::recv_socket_msg` (lines
142-154): select the wallpapers by name, stop their animations, record the
color descriptor and fill each canvas, and answer `Ok`. (The buffer
attach/damage/commit calls touch only the compositor connection.) -/
def Daemon.handleClear (d : Daemon) (color : Rgb) (outputs : List String) : Daemon × Answer :=
  let selected := d.findWallpapersByNames outputs
  let d1 := d.stopAnimations selected
  let d2 := { d1 with
    wallpapers := d1.wallpapers.map fun w =>
      if outputs.isEmpty || outputs.any (fun n => w.hasName n) then
        (w.setImgInfo (BgImg.color color)).clear color
      else w }
  (d2, Answer.ok)

/-- The `while !imgs.is_empty() && !outputs.is_empty()` loop of the
`RequestRecv::Img` arm (lines 171-188): pop an (image, names, animation)
triple from the backs of the lists, select and stop the targeted wallpapers,
build a `TransitionAnimator`, run its first frame, and push it; `poll_time`
is set to 0. `fuel = imgs.length` makes the recursion structural. -/
def Daemon.imgLoop (tr : IpcTransition) :
    Nat → Daemon → List ImgReq → List (List String) → Option (List Animation) → Daemon
  | 0, d, _, _, _ => d
  | fuel + 1, d, imgs, outputs, animations =>
    match imgs.getLast?, outputs.getLast? with
    | some img, some names =>
      let animation := match animations with
        | some l => l.getLast?
        | none => none
      let animations' := match animations with
        | some l => some l.dropLast
        | none => none
      let selected := d.findWallpapersByNames names
      let d1 := d.stopAnimations selected
      let d2 := match TransitionAnimator.new selected tr img animation with
        | some t =>
          { d1 with transitionAnimators := d1.transitionAnimators ++ [(t.frame).1] }
        | none => d1
      Daemon.imgLoop tr fuel { d2 with pollTime := 0 }
        imgs.dropLast outputs.dropLast animations'
    | _, _ => d

/-- `Daemon::recv_socket_msg` (lines 131-195), restricted to a successfully
decoded request: the `match request` dispatch returning the answer sent back
to the client. -/
def Daemon.recvSocketMsg (d : Daemon) (request : RequestRecv) : Daemon × Answer :=
  match request with
  | RequestRecv.clear color outputs => d.handleClear color outputs
  | RequestRecv.ping =>
      (d, Answer.ping (d.wallpapers.all fun w => w.configured))
  | RequestRecv.kill => ({ d with exitRequested := true }, Answer.ok)
  | RequestRecv.query => (d, Answer.bgInfo d.wallpapersInfo)
  | RequestRecv.img transition imgs outputs animations =>
      (Daemon.imgLoop transition imgs.length d imgs outputs animations, Answer.ok)

/-- Observable side effects of a draw pass: the spin-sleep of the residual
time, the buffer attach/damage pass, the surface commit, and the promotion of
a finished transition into an image animator. -/
inductive DrawEvent where
  | spinSleep (t : Nat)
  | attachDamage (ws : List Wallpaper)
  | commit (ws : List Wallpaper)
  | promote (a : ImageAnimator)
deriving DecidableEq

/-- One iteration of the transition-animator loop of `Daemon::draw` (lines
219-250): when every wallpaper is draw-ready, either skip with the poll flag
when more than 1200 us remain, or spin-sleep the residual, attach and commit,
reset the wall-clock anchor, and run `frame()`; a `true` result removes the
animator and promotes it via `into_image_animator`. -/
def drawStepTA (t : TransitionAnimator) : Option TransitionAnimator × List DrawEvent × Bool :=
  if t.wallpapers.all fun w => w.drawReady then
    let time := t.timeToDraw
    if 1200 < time then (some t, [], true)
    else
      let sleepEvs := if time ≠ 0 then [DrawEvent.spinSleep time] else []
      let evs := sleepEvs ++ [DrawEvent.attachDamage t.wallpapers, DrawEvent.commit t.wallpapers]
      let t1 := t.updtTime
      match t1.frame with
      | (t2, false) => (some t2, evs, false)
      | (_, true) =>
          (none, evs ++ (t1.intoImageAnimator.map DrawEvent.promote).toList, false)
  else (some t, [], false)

/-- One iteration of the image-animator loop of `Daemon::draw` (lines
253-274): identical pacing, but `frame()` never removes the animator. -/
def drawStepIA (a : ImageAnimator) : ImageAnimator × List DrawEvent × Bool :=
  if a.wallpapers.all fun w => w.drawReady then
    let time := a.timeToDraw
    if 1200 < time then (a, [], true)
    else
      let sleepEvs := if time ≠ 0 then [DrawEvent.spinSleep time] else []
      let evs := sleepEvs ++ [DrawEvent.attachDamage a.wallpapers, DrawEvent.commit a.wallpapers]
      (a.updtTime.frame, evs, false)
  else (a, [], false)

/-- Extract a promoted image animator from a draw event. -/
def promotedOf (e : DrawEvent) : Option ImageAnimator :=
  match e with
  | DrawEvent.promote a => some a
  | _ => none

/-- `Daemon::draw` (lines 216-275): reset `poll_time` to -1; sweep the
transition animators (swap-removing finished ones and pushing their promoted
image animators); then retain the image animators that still have wallpapers
and pace each one. Any skip raises `poll_time` to 1. Returns the new state
and the emitted side effects in order. -/
def Daemon.draw (d : Daemon) : Daemon × List DrawEvent :=
  let r := sweep drawStepTA d.transitionAnimators.length 0 d.transitionAnimators
  let promoted := r.2.1.filterMap promotedOf
  let images0 := (d.imageAnimators ++ promoted).filter fun a => !a.wallpapers.isEmpty
  let steps := images0.map drawStepIA
  ({ d with
      transitionAnimators := r.1
      imageAnimators := steps.map fun s => s.1
      pollTime := if r.2.2 || steps.any (fun s => s.2.2) then 1 else -1 },
   r.2.1 ++ steps.flatMap fun s => s.2.1)

/-- The action the main loop takes on a `poll` error (lines 545-549):
`rustix::io::Errno::INTR` restarts the loop iteration; anything else makes
`main` return `Err(..)`, which terminates the process with a non-zero status. -/
inductive LoopStep where
  | retry
  | exitWithError (msg : String)
deriving DecidableEq

/-- Errno values, as raw `errno` codes; `EINTR` is 4 on Linux. -/
def EINTR : Nat := 4

/-- The `match e` on a failed `poll` in `main` (lines 545-549). -/
def pollErrorAction (e : Nat) : LoopStep :=
  if e = EINTR then LoopStep.retry
  else LoopStep.exitWithError "failed to poll file descriptors"

/-- The `for (frame, duration) in animation.animation.iter().cycle()` loop of
the animation worker (lines 275-311): rendezvous on the barrier, prune
wallpapers whose token is stale or whose decode fails, return once the list
empties, otherwise attach, sleep out the frame duration, and commit. The
cycling iterator is modelled by the index `idx` mod the sequence length, and
the unbounded loop by `fuel`. -/
def animLoop (frames : List (Frame × Nat)) : Nat → Nat → List Wallpaper → List AnimEvent
  | 0, _, _ => []
  | fuel + 1, idx, ws =>
    let fd := frames.getD (idx % frames.length) (0, 0)
    let r := sweep (workerPruneStep fd.1) ws.length 0 ws
    let evs := AnimEvent.barrierWait (fd.2 / 2) :: r.2.1
    if r.1.isEmpty then evs
    else
      evs ++ [AnimEvent.attachDamage r.1, AnimEvent.spinSleep fd.2, AnimEvent.commit r.1]
        ++ animLoop frames fuel (idx + 1) r.1

/-- The body of `Animator::spawn_animation_thread` (lines 249-314): return at
once when the animation has at most one frame or there are no wallpapers;
otherwise create one animation token per wallpaper and enter the frame loop. -/
def spawnAnimationThread (fuel : Nat) (animation : Animation)
    (wallpapers : List Wallpaper) : List AnimEvent :=
  if animation.animation.length ≤ 1 || wallpapers.isEmpty then []
  else
    (wallpapers.map fun _ => AnimEvent.createToken)
      ++ animLoop animation.animation fuel 0 wallpapers

/-- A concrete wallpaper used by witnesses and counterexamples. -/
def mkWallpaper (nm : String) (d : Nat × Nat) (ok : Bool) : Wallpaper :=
  { name := some nm, configured := true, dims := d, bg := BgImg.color (0, 0, 0)
    canvas := [(0, 0, 0), (0, 0, 0)], drawReady := true, decodeOk := ok
    animTokenValid := true, drawn := 0 }

/-- C3: for every `TransitionAnimator` and every `ImageAnimator`, and for
every pair of last-update/current instants (i.e. every elapsed time),
`time_to_draw()` equals the frame period (respectively the current frame's
duration) minus the elapsed time since the last `updt_time`, and returns
zero rather than a negative value whenever the current time is past the
target. -/
theorem c3_time_to_draw_saturating (t : TransitionAnimator) (a : ImageAnimator)
    (h : a.animation.animation ≠ []) :
    ((t.timeToDraw : Int) = max 0 ((t.fps : Int) - (t.elapsed : Int)))
    ∧ ((a.timeToDraw : Int) =
        max 0
          (((a.animation.animation.getD (a.i % a.animation.animation.length) (0, 0)).2 : Int)
            - (a.elapsed : Int))) := by
  unfold TransitionAnimator.timeToDraw ImageAnimator.timeToDraw
  constructor <;> omega

/-- A concrete transition animator for witnesses: 250 us have elapsed against
a 100 us frame period. -/
def sampleTA : TransitionAnimator :=
  { wallpapers := [mkWallpaper "out-1" (1, 1) true], fps := 100, execDone := false
    img := { path := "p", dim := (1, 1) }, animation := none, elapsed := 250, over := false }

/-- A concrete image animator for witnesses: 3 us into a 5 us frame. -/
def sampleIA : ImageAnimator :=
  { elapsed := 3, wallpapers := [mkWallpaper "out-1" (1, 1) true]
    animation := { animation := [(0, 5)] }, i := 0 }

/-- Witness for C3 at `sampleTA` (already past its target, so zero) and
`sampleIA`. -/
theorem c3_time_to_draw_saturating_witness :
    sampleIA.animation.animation ≠ []
    ∧ (((sampleTA.timeToDraw : Int) = max 0 ((sampleTA.fps : Int) - (sampleTA.elapsed : Int)))
      ∧ ((sampleIA.timeToDraw : Int) =
          max 0
            (((sampleIA.animation.animation.getD
                (sampleIA.i % sampleIA.animation.animation.length) (0, 0)).2 : Int)
              - (sampleIA.elapsed : Int)))) :=
  ⟨by decide, c3_time_to_draw_saturating sampleTA sampleIA (by decide)⟩

/-- C7: when `poll` in the main loop returns an error, the daemon retries the
loop iteration if and only if the error is `EINTR`; every other poll error
makes `main` return an error, exiting the process with a non-zero status and
an error message. -/
theorem c7_poll_error_eintr_retries (e : Nat) :
    (pollErrorAction e = LoopStep.retry ↔ e = EINTR)
    ∧ (e ≠ EINTR →
        pollErrorAction e = LoopStep.exitWithError "failed to poll file descriptors") := by
  unfold pollErrorAction
  by_cases he : e = EINTR <;> simp [he]

/-- Witness for C7: errno 5 (EIO) is not EINTR and exits with an error. -/
theorem c7_poll_error_eintr_retries_witness :
    pollErrorAction 5 = LoopStep.exitWithError "failed to poll file descriptors" :=
  (c7_poll_error_eintr_retries 5).2 (by decide)

/-- C8: a `Ping` request is always answered with `Answer::Ping(b)` where `b`
holds iff every tracked wallpaper is configured; with no outputs at all the
answer is `Answer::Ping(true)`. -/
theorem c8_ping_reports_all_configured (d : Daemon) :
    ((d.recvSocketMsg RequestRecv.ping).2
        = Answer.ping (d.wallpapers.all fun w => w.configured))
    ∧ ((d.recvSocketMsg RequestRecv.ping).2 = Answer.ping true
        ↔ ∀ w ∈ d.wallpapers, w.configured = true)
    ∧ (d.wallpapers = [] → (d.recvSocketMsg RequestRecv.ping).2 = Answer.ping true) := by
  refine ⟨rfl, ?_, ?_⟩
  · show Answer.ping (d.wallpapers.all fun w => w.configured) = Answer.ping true ↔ _
    constructor
    · intro h
      have hall : (d.wallpapers.all fun w => w.configured) = true := by
        injection h with h1
      simpa [List.all_eq_true] using hall
    · intro h
      have : (d.wallpapers.all fun w => w.configured) = true := by
        simpa [List.all_eq_true] using h
      rw [this]
  · intro h
    show Answer.ping (d.wallpapers.all fun w => w.configured) = Answer.ping true
    rw [h]
    rfl

/-- Witness for C8 at a daemon tracking no outputs. -/
theorem c8_ping_reports_all_configured_witness :
    (({ wallpapers := [], transitionAnimators := [], imageAnimators := []
        pollTime := -1, exitRequested := false } : Daemon).recvSocketMsg
      RequestRecv.ping).2 = Answer.ping true :=
  (c8_ping_reports_all_configured _).2.2 rfl

/-- C9: an animation worker whose sequence has at most one frame, or whose
wallpaper list is empty, returns immediately: it emits no events at all (no
animation tokens, no draw, no commit). -/
theorem c9_short_animation_no_work (fuel : Nat) (animation : Animation)
    (ws : List Wallpaper) (h : animation.animation.length ≤ 1 ∨ ws = []) :
    spawnAnimationThread fuel animation ws = [] := by
  unfold spawnAnimationThread
  rcases h with h | h
  · simp [h]
  · simp [h]

/-- Witness for C9: a one-frame animation over one wallpaper does nothing. -/
theorem c9_short_animation_no_work_witness :
    spawnAnimationThread 5 { animation := [(0, 100)] } [mkWallpaper "out-1" (1, 1) true] = [] :=
  c9_short_animation_no_work 5 _ _ (Or.inl (by decide))

/-- C10: `find_wallpapers_by_names` returns every tracked wallpaper when the
name list is empty, and exactly the wallpapers whose name matches one of the
given names otherwise. -/
theorem c10_find_wallpapers_by_names_selects (d : Daemon) (names : List String) :
    (names = [] → d.findWallpapersByNames names = d.wallpapers)
    ∧ (names ≠ [] →
        d.findWallpapersByNames names
          = d.wallpapers.filter fun w => names.any fun n => w.hasName n) := by
  constructor
  · intro h
    subst h
    simp [Daemon.findWallpapersByNames]
  · intro h
    unfold Daemon.findWallpapersByNames
    have hne : names.isEmpty = false := by
      cases names with
      | nil => exact absurd rfl h
      | cons a l => rfl
    simp [hne]

/-- Witness for C10: an empty request selects both wallpapers of a concrete
daemon, a request naming `out-2` selects exactly the matching one. -/
theorem c10_find_wallpapers_by_names_selects_witness :
    (({ wallpapers := [mkWallpaper "out-1" (1, 1) true, mkWallpaper "out-2" (2, 2) true]
        transitionAnimators := [], imageAnimators := [], pollTime := -1
        exitRequested := false } : Daemon).findWallpapersByNames []
      = [mkWallpaper "out-1" (1, 1) true, mkWallpaper "out-2" (2, 2) true])
    ∧ (({ wallpapers := [mkWallpaper "out-1" (1, 1) true, mkWallpaper "out-2" (2, 2) true]
          transitionAnimators := [], imageAnimators := [], pollTime := -1
          exitRequested := false } : Daemon).findWallpapersByNames ["out-2"]
        = [mkWallpaper "out-1" (1, 1) true, mkWallpaper "out-2" (2, 2) true].filter
            fun w => ["out-2"].any fun n => w.hasName n) :=
  ⟨(c10_find_wallpapers_by_names_selects _ []).1 rfl,
   (c10_find_wallpapers_by_names_selects _ ["out-2"]).2 (by decide)⟩

/-- A concrete two-frame image animator starting at index 0 over no
wallpapers. -/
def twoFrameIA : ImageAnimator :=
  { elapsed := 0, wallpapers := [], animation := { animation := [(0, 100), (1, 100)] }, i := 0 }

/-- Counterexample to C1 as stated: after N = 2 calls to `frame()` on a
2-frame animator, the stored index field is 2, which neither stays below
`frames.len` nor equals `N mod frames.len = 0` — the source increments `i`
without reducing it modulo the length (the modulo is applied at every use
site instead). -/
theorem c1_counterexample :
    (twoFrameIA.frame.frame).i = 2
    ∧ ¬((twoFrameIA.frame.frame).i < twoFrameIA.animation.animation.length)
    ∧ (twoFrameIA.frame.frame).i ≠ 2 % twoFrameIA.animation.animation.length := by
  refine ⟨?_, ?_, ?_⟩ <;> decide

/-- C1 (amended): the stored index field advances by exactly 1 per `frame()`
call, without modulo reduction, so after N calls it equals its initial value
plus N; the frame actually displayed is selected by `index mod frames.len`,
which always lies in `[0, frames.len)` and, starting from index 0, equals
`N mod frames.len` after N calls. -/
theorem c1_index_advances_mod_at_use (a : ImageAnimator) (n : Nat)
    (h : 0 < a.animation.animation.length) :
    (ImageAnimator.frame^[n] a).animation = a.animation
    ∧ (ImageAnimator.frame^[n] a).i = a.i + n
    ∧ (ImageAnimator.frame^[n] a).i % a.animation.animation.length
        < a.animation.animation.length
    ∧ (a.i = 0 →
        (ImageAnimator.frame^[n] a).i % a.animation.animation.length
          = n % a.animation.animation.length) := by
  have key : ∀ b : ImageAnimator, (ImageAnimator.frame b).animation = b.animation
      ∧ (ImageAnimator.frame b).i = b.i + 1 := fun b => ⟨rfl, rfl⟩
  induction n with
  | zero =>
      refine ⟨rfl, rfl, Nat.mod_lt _ h, fun h0 => by simp [h0]⟩
  | succ n ih =>
      obtain ⟨ih1, ih2, _, _⟩ := ih
      rw [Function.iterate_succ_apply']
      refine ⟨?_, ?_, Nat.mod_lt _ h, ?_⟩
      · rw [(key _).1, ih1]
      · rw [(key _).2, ih2]; omega
      · intro h0
        rw [(key _).2, ih2, h0]
        simp

/-- Witness for C1 (amended) at `twoFrameIA` and N = 3. -/
theorem c1_index_advances_mod_at_use_witness :
    0 < twoFrameIA.animation.animation.length
    ∧ ((ImageAnimator.frame^[3] twoFrameIA).animation = twoFrameIA.animation
      ∧ (ImageAnimator.frame^[3] twoFrameIA).i = twoFrameIA.i + 3
      ∧ (ImageAnimator.frame^[3] twoFrameIA).i % twoFrameIA.animation.animation.length
          < twoFrameIA.animation.animation.length
      ∧ (twoFrameIA.i = 0 →
          (ImageAnimator.frame^[3] twoFrameIA).i % twoFrameIA.animation.animation.length
            = 3 % twoFrameIA.animation.animation.length)) :=
  ⟨by decide, c1_index_advances_mod_at_use twoFrameIA 3 (by decide)⟩

theorem frameStep_keep (fr : Frame) (ws : List Wallpaper) :
    ws.filterMap (fun w => (frameStep fr w).1)
      = (ws.filter fun w => w.decodeOk).map fun w => { w with drawn := w.drawn + 1 } := by
  induction ws with
  | nil => rfl
  | cons w t ih =>
      rw [List.filterMap_cons, List.filter_cons]
      by_cases hw : w.decodeOk
      · have hc : frameStep fr w = (some { w with drawn := w.drawn + 1 }, [], false) := by
          simp [frameStep, canvasChange, hw]
        simp [hc, hw, ih]
      · have hc : frameStep fr w = (none, [AnimEvent.decodeError], false) := by
          simp [frameStep, canvasChange, hw]
        simp [hc, hw, ih]

theorem frameStep_logs (fr : Frame) (ws : List Wallpaper) :
    (ws.flatMap fun w => (frameStep fr w).2.1)
      = (ws.filter fun w => !w.decodeOk).map fun _ => AnimEvent.decodeError := by
  induction ws with
  | nil => rfl
  | cons w t ih =>
      rw [List.flatMap_cons, List.filter_cons]
      by_cases hw : w.decodeOk
      · have hc : frameStep fr w = (some { w with drawn := w.drawn + 1 }, [], false) := by
          simp [frameStep, canvasChange, hw]
        simp [hc, hw, ih]
      · have hc : frameStep fr w = (none, [AnimEvent.decodeError], false) := by
          simp [frameStep, canvasChange, hw]
        simp [hc, hw, ih]

theorem workerPruneStep_keep (fr : Frame) (ws : List Wallpaper) :
    ws.filterMap (fun w => (workerPruneStep fr w).1)
      = (ws.filter fun w => w.animTokenValid && w.decodeOk).map
          fun w => { w with drawn := w.drawn + 1 } := by
  induction ws with
  | nil => rfl
  | cons w t ih =>
      rw [List.filterMap_cons, List.filter_cons]
      by_cases ht : w.animTokenValid
      · by_cases hw : w.decodeOk
        · have hc : workerPruneStep fr w = (some { w with drawn := w.drawn + 1 }, [], false) := by
            simp [workerPruneStep, frameStep, canvasChange, ht, hw]
          simp [hc, ht, hw, ih]
        · have hc : workerPruneStep fr w = (none, [AnimEvent.decodeError], false) := by
            simp [workerPruneStep, frameStep, canvasChange, ht, hw]
          simp [hc, ht, hw, ih]
      · have hc : workerPruneStep fr w = (none, [], false) := by
          simp [workerPruneStep, ht]
        simp [hc, ht, ih]

theorem workerPruneStep_logs (fr : Frame) (ws : List Wallpaper) :
    (ws.flatMap fun w => (workerPruneStep fr w).2.1)
      = (ws.filter fun w => w.animTokenValid && !w.decodeOk).map
          fun _ => AnimEvent.decodeError := by
  induction ws with
  | nil => rfl
  | cons w t ih =>
      rw [List.flatMap_cons, List.filter_cons]
      by_cases ht : w.animTokenValid
      · by_cases hw : w.decodeOk
        · have hc : workerPruneStep fr w = (some { w with drawn := w.drawn + 1 }, [], false) := by
            simp [workerPruneStep, frameStep, canvasChange, ht, hw]
          simp [hc, ht, hw, ih]
        · have hc : workerPruneStep fr w = (none, [AnimEvent.decodeError], false) := by
            simp [workerPruneStep, frameStep, canvasChange, ht, hw]
          simp [hc, ht, hw, ih]
      · have hc : workerPruneStep fr w = (none, [], false) := by
          simp [workerPruneStep, ht]
        simp [hc, ht, ih]

/-- C4: whenever a frame decode fails for one wallpaper — during
`ImageAnimator::frame` or in the animation worker thread's frame loop —
exactly that wallpaper is swap-removed from the animator's list, one
`failed to unpack frame` error is logged for it (a `decodeError` event),
every other wallpaper is still drawn (its `drawn` counter bumps; in the
worker, stale-token wallpapers are pruned silently first, as the source
does), and the animator keeps running: the index advances, the animation is
retained, and the surviving list is, up to swap-remove reordering, exactly
the successfully decoded wallpapers. -/
theorem c4_frame_prunes_failed_decode (a : ImageAnimator)
    (h : a.animation.animation ≠ []) (fr : Frame) (ws : List Wallpaper) :
    ((a.frame).wallpapers
      ~ ((a.wallpapers.filter fun w => w.decodeOk).map fun w => { w with drawn := w.drawn + 1 }))
    ∧ (a.frame).i = a.i + 1
    ∧ (a.frame).animation = a.animation
    ∧ (a.frameLogs
      ~ (a.wallpapers.filter fun w => !w.decodeOk).map fun _ => AnimEvent.decodeError)
    ∧ ((sweep (workerPruneStep fr) ws.length 0 ws).1
      ~ ((ws.filter fun w => w.animTokenValid && w.decodeOk).map
          fun w => { w with drawn := w.drawn + 1 }))
    ∧ ((sweep (workerPruneStep fr) ws.length 0 ws).2.1
      ~ (ws.filter fun w => w.animTokenValid && !w.decodeOk).map
          fun _ => AnimEvent.decodeError) := by
  obtain ⟨hf1, hf2, _⟩ := sweep_spec
    (frameStep (a.animation.animation.getD (a.i % a.animation.animation.length) (0, 0)).1)
    a.wallpapers.length 0 a.wallpapers (by omega)
  obtain ⟨hw1, hw2, _⟩ := sweep_spec (workerPruneStep fr) ws.length 0 ws (by omega)
  simp only [List.take_zero, List.drop_zero, List.nil_append] at hf1 hf2 hw1 hw2
  refine ⟨?_, rfl, rfl, ?_, ?_, ?_⟩
  · refine hf1.trans ?_
    rw [frameStep_keep]
  · refine hf2.trans ?_
    rw [frameStep_logs]
  · refine hw1.trans ?_
    rw [workerPruneStep_keep]
  · refine hw2.trans ?_
    rw [workerPruneStep_logs]

/-- A concrete two-wallpaper image animator whose second wallpaper fails to
decode. -/
def c4SampleIA : ImageAnimator :=
  { elapsed := 0
    wallpapers := [mkWallpaper "out-1" (1, 1) true, mkWallpaper "out-2" (1, 1) false]
    animation := { animation := [(0, 100), (1, 100)] }, i := 0 }

/-- A concrete worker-thread wallpaper list: one healthy, one failing to
decode, one with a stale animation token. -/
def c4SampleWorkerWs : List Wallpaper :=
  [mkWallpaper "out-1" (1, 1) true, mkWallpaper "out-2" (1, 1) false,
   { mkWallpaper "out-3" (1, 1) true with animTokenValid := false }]

/-- Witness for C4 on both code paths: the failing wallpaper is removed with
one logged error while the healthy one is drawn, and in the worker the
stale-token wallpaper is removed without a log line. -/
theorem c4_frame_prunes_failed_decode_witness :
    c4SampleIA.animation.animation ≠ []
    ∧ (c4SampleIA.frame.wallpapers
        ~ ((c4SampleIA.wallpapers.filter fun w => w.decodeOk).map
            fun w => { w with drawn := w.drawn + 1 }))
    ∧ (c4SampleIA.frameLogs
        ~ (c4SampleIA.wallpapers.filter fun w => !w.decodeOk).map
            fun _ => AnimEvent.decodeError)
    ∧ ((sweep (workerPruneStep 7) c4SampleWorkerWs.length 0 c4SampleWorkerWs).1
        ~ ((c4SampleWorkerWs.filter fun w => w.animTokenValid && w.decodeOk).map
            fun w => { w with drawn := w.drawn + 1 }))
    ∧ ((sweep (workerPruneStep 7) c4SampleWorkerWs.length 0 c4SampleWorkerWs).2.1
        ~ (c4SampleWorkerWs.filter fun w => w.animTokenValid && !w.decodeOk).map
            fun _ => AnimEvent.decodeError) :=
  ⟨by decide,
   (c4_frame_prunes_failed_decode c4SampleIA (by decide) 7 c4SampleWorkerWs).1,
   (c4_frame_prunes_failed_decode c4SampleIA (by decide) 7 c4SampleWorkerWs).2.2.2.1,
   (c4_frame_prunes_failed_decode c4SampleIA (by decide) 7 c4SampleWorkerWs).2.2.2.2.1,
   (c4_frame_prunes_failed_decode c4SampleIA (by decide) 7 c4SampleWorkerWs).2.2.2.2.2⟩

/-- Counterexample to C2 as stated: `TransitionAnimator::new` compares the
image dimensions against `wallpapers[0].get_dimensions()` only. With a first
wallpaper of dimensions (1,1) and a second of dimensions (2,2), a (1,1)
image is accepted, yet the resulting animator contains a wallpaper whose
dimensions differ from the image's. -/
theorem c2_counterexample :
    (TransitionAnimator.new [mkWallpaper "out-1" (1, 1) true, mkWallpaper "out-2" (2, 2) true]
        { fps := 16666, execDone := false } { path := "img", dim := (1, 1) } none).isSome = true
    ∧ ((TransitionAnimator.new [mkWallpaper "out-1" (1, 1) true, mkWallpaper "out-2" (2, 2) true]
        { fps := 16666, execDone := false } { path := "img", dim := (1, 1) } none).map
        fun t => t.wallpapers.all fun w => decide (w.dims = (1, 1))) = some false := by
  constructor <;> decide

/-- C2 (amended): `TransitionAnimator::new` validates dimensions only against
the first target wallpaper: it succeeds iff the wallpaper list is nonempty
and the image dimensions equal `wallpapers[0].get_dimensions()`; its
wallpapers are the inputs relabelled with the image path, so the claimed
every-wallpaper invariant holds at construction exactly when all targets
share the first one's dimensions. -/
theorem c2_new_checks_only_first (ws : List Wallpaper) (tr : IpcTransition)
    (req : ImgReq) (anim : Option Animation) :
    ((TransitionAnimator.new ws tr req anim).isSome
      ↔ ws ≠ [] ∧ req.dim = (ws.headD default).dims)
    ∧ (∀ t, TransitionAnimator.new ws tr req anim = some t →
        t.wallpapers = ws.map fun w => { w with bg := BgImg.img req.path })
    ∧ (∀ t, TransitionAnimator.new ws tr req anim = some t →
        (∀ w ∈ ws, w.dims = (ws.headD default).dims) →
        ∀ w ∈ t.wallpapers, w.dims = req.dim) := by
  match ws with
  | [] =>
      refine ⟨?_, ?_, ?_⟩ <;> simp [TransitionAnimator.new]
  | x :: l =>
      by_cases hdim : req.dim = x.dims
      · have hsome : TransitionAnimator.new (x :: l) tr req anim
            = some { wallpapers := (x :: l).map fun w => { w with bg := BgImg.img req.path }
                     fps := tr.fps, execDone := tr.execDone, img := req
                     animation := anim, elapsed := 0, over := false } := by
          unfold TransitionAnimator.new
          simp [hdim]
        refine ⟨?_, ?_, ?_⟩
        · rw [hsome]
          simp [hdim]
        · intro t ht
          rw [hsome] at ht
          injection ht with ht
          subst ht
          rfl
        · intro t ht huni w hw
          rw [hsome] at ht
          injection ht with ht
          subst ht
          rcases List.mem_map.mp hw with ⟨y, hy, rfl⟩
          have : y.dims = x.dims := huni y hy
          show y.dims = req.dim
          rw [this, hdim]
      · have hnone : TransitionAnimator.new (x :: l) tr req anim = none := by
          unfold TransitionAnimator.new
          simp [hdim]
        refine ⟨?_, ?_, ?_⟩
        · rw [hnone]
          simp [hdim]
        · intro t ht
          rw [hnone] at ht
          exact absurd ht (by simp)
        · intro t ht
          rw [hnone] at ht
          exact absurd ht (by simp)

/-- Witness for C2 (amended): a single (1,1) wallpaper with a (1,1) image is
accepted, and the constructed animator's wallpaper has the image dimensions. -/
theorem c2_new_checks_only_first_witness :
    (TransitionAnimator.new [mkWallpaper "out-1" (1, 1) true]
        { fps := 100, execDone := true } { path := "p", dim := (1, 1) } none).isSome
    ∧ ({ mkWallpaper "out-1" (1, 1) true with bg := BgImg.img "p" } : Wallpaper).dims = (1, 1) :=
  ⟨((c2_new_checks_only_first [mkWallpaper "out-1" (1, 1) true] { fps := 100, execDone := true }
      { path := "p", dim := (1, 1) } none).1).mpr ⟨by decide, by decide⟩,
   (c2_new_checks_only_first [mkWallpaper "out-1" (1, 1) true] { fps := 100, execDone := true }
      { path := "p", dim := (1, 1) } none).2.2
     { wallpapers := [{ mkWallpaper "out-1" (1, 1) true with bg := BgImg.img "p" }]
       fps := 100, execDone := true, img := { path := "p", dim := (1, 1) }
       animation := none, elapsed := 0, over := false }
     (by decide) (by decide) _ (by decide)⟩

theorem getD_map_of_lt (f : α → β) (l : List α) (k : Nat) (h : k < l.length)
    (d1 : α) (d2 : β) : (l.map f).getD k d2 = f (l.getD k d1) := by
  rw [List.getD_eq_getElem?_getD, List.getElem?_map, List.getElem?_eq_getElem h,
      List.getD_eq_getElem?_getD, List.getElem?_eq_getElem h]
  rfl

/-- C5: after `Clear(c)` naming outputs S is handled, a `Query` answers with
the per-wallpaper info list in which every wallpaper selected by S (empty S
selects all, per `find_wallpapers_by_names`) reports `Bg::Color(c)` and a
canvas filled with c, while every wallpaper outside the selection is
untouched (same descriptor, same canvas). -/
theorem c5_clear_then_query (d : Daemon) (c : Rgb) (names : List String) (k : Nat)
    (hk : k < d.wallpapers.length) :
    ((d.handleClear c names).1.wallpapers.length = d.wallpapers.length)
    ∧ (((d.handleClear c names).1.recvSocketMsg RequestRecv.query).2
        = Answer.bgInfo (d.handleClear c names).1.wallpapersInfo)
    ∧ ((names.isEmpty || names.any fun n => (d.wallpapers.getD k default).hasName n) = true →
        (d.handleClear c names).1.wallpapersInfo.getD k
            { name := none, dims := (0, 0), bg := BgImg.color (0, 0, 0) }
          = { name := (d.wallpapers.getD k default).name
              dims := (d.wallpapers.getD k default).dims
              bg := BgImg.color c }
        ∧ ((d.handleClear c names).1.wallpapers.getD k default).canvas
            = List.replicate (d.wallpapers.getD k default).canvas.length c)
    ∧ ((names.isEmpty || names.any fun n => (d.wallpapers.getD k default).hasName n) = false →
        (d.handleClear c names).1.wallpapers.getD k default = d.wallpapers.getD k default) := by
  have hwp : (d.handleClear c names).1.wallpapers
      = d.wallpapers.map fun w =>
          if names.isEmpty || names.any (fun n => w.hasName n) then
            (w.setImgInfo (BgImg.color c)).clear c
          else w := rfl
  refine ⟨?_, rfl, ?_, ?_⟩
  · rw [hwp, List.length_map]
  · intro hsel
    have hinfo : (d.handleClear c names).1.wallpapersInfo
        = (d.handleClear c names).1.wallpapers.map Wallpaper.getBgInfo := rfl
    constructor
    · rw [hinfo, hwp, List.map_map,
        getD_map_of_lt _ d.wallpapers k hk default
          ({ name := none, dims := (0, 0), bg := BgImg.color (0, 0, 0) } : BgInfo)]
      simp only [Function.comp_apply, hsel, if_pos]
      rfl
    · rw [hwp, getD_map_of_lt _ d.wallpapers k hk default default]
      simp only [hsel, if_pos]
      rfl
  · intro hsel
    rw [hwp, getD_map_of_lt _ d.wallpapers k hk default default, hsel]
    simp

/-- A concrete daemon with two named, configured outputs. -/
def sampleDaemon : Daemon :=
  { wallpapers := [mkWallpaper "out-1" (1, 1) true, mkWallpaper "out-2" (2, 2) true]
    transitionAnimators := [], imageAnimators := [], pollTime := -1, exitRequested := false }

/-- Witness for C5: clearing `out-1` with color (9,8,7) makes the query
report that color for `out-1` and leaves `out-2` untouched. -/
theorem c5_clear_then_query_witness :
    0 < sampleDaemon.wallpapers.length
    ∧ ((sampleDaemon.handleClear (9, 8, 7) ["out-1"]).1.wallpapersInfo.getD 0
        { name := none, dims := (0, 0), bg := BgImg.color (0, 0, 0) }
        = { name := (sampleDaemon.wallpapers.getD 0 default).name
            dims := (sampleDaemon.wallpapers.getD 0 default).dims
            bg := BgImg.color (9, 8, 7) })
    ∧ ((sampleDaemon.handleClear (9, 8, 7) ["out-1"]).1.wallpapers.getD 1 default
        = sampleDaemon.wallpapers.getD 1 default) :=
  ⟨by decide,
   ((c5_clear_then_query sampleDaemon (9, 8, 7) ["out-1"] 0 (by decide)).2.2.1 (by decide)).1,
   (c5_clear_then_query sampleDaemon (9, 8, 7) ["out-1"] 1 (by decide)).2.2.2 (by decide)⟩

theorem any_map_general (f : α → β) (p : β → Bool) (l : List α) :
    (l.map f).any p = l.any fun a => p (f a) := by
  induction l with
  | nil => rfl
  | cons x xs ih => simp [List.any_cons, ih]

theorem flatMap_filterMap_comm (g : α → List β) (p : β → Option γ) (l : List α) :
    (l.flatMap g).filterMap p = l.flatMap fun a => (g a).filterMap p := by
  induction l with
  | nil => simp
  | cons x xs ih => simp [List.flatMap_cons, List.filterMap_append, ih]

theorem flatMap_option_toList (g : α → Option β) (l : List α) :
    (l.flatMap fun a => (g a).toList) = l.filterMap g := by
  induction l with
  | nil => simp
  | cons x xs ih =>
      rw [List.flatMap_cons, List.filterMap_cons, ih]
      cases g x <;> simp

/-- Spec side of claim C6: a transition animator is skipped (raising the
1 ms poll flag) when all its wallpapers are draw-ready but more than 1200 us
remain until its target time. -/
def specSkipTA (t : TransitionAnimator) : Bool :=
  (t.wallpapers.all fun w => w.drawReady) && decide (1200 < t.timeToDraw)

/-- Spec side of claim C6: how a single transition animator survives a draw
pass. Not all draw-ready: untouched. Skipped: untouched. Paced: the
wall-clock anchor resets and `frame()` runs, so a not-yet-over animator
records the `Transition::execute` outcome, while an already-over animator is
removed. -/
def specKeepTA (t : TransitionAnimator) : Option TransitionAnimator :=
  if t.wallpapers.all fun w => w.drawReady then
    if 1200 < t.timeToDraw then some t
    else if t.over then none
    else some { t with elapsed := 0, over := t.execDone }
  else some t

/-- Spec side of claim C6: a paced transition animator whose `frame()`
reports completion is promoted into an image animator exactly when the
request carried an animation. -/
def specPromoteTA (t : TransitionAnimator) : Option ImageAnimator :=
  if (t.wallpapers.all fun w => w.drawReady) && !decide (1200 < t.timeToDraw) && t.over then
    t.animation.map fun animation =>
      { elapsed := 0, wallpapers := t.wallpapers, animation := animation, i := 0 }
  else none

/-- Spec side of claim C6: identical pacing test for image animators. -/
def specSkipIA (a : ImageAnimator) : Bool :=
  (a.wallpapers.all fun w => w.drawReady) && decide (1200 < a.timeToDraw)

/-- Spec side of claim C6: how a single image animator is paced. -/
def specStepIA (a : ImageAnimator) : ImageAnimator :=
  if a.wallpapers.all fun w => w.drawReady then
    if 1200 < a.timeToDraw then a else a.updtTime.frame
  else a

/-- Spec side of claim C6: a transition animator is committed exactly when it
is paced this pass (all draw-ready, at most 1200 us remaining). -/
def specCommitTA (t : TransitionAnimator) : Option (List Wallpaper) :=
  if (t.wallpapers.all fun w => w.drawReady) && !decide (1200 < t.timeToDraw) then
    some t.wallpapers
  else none

/-- Spec side of claim C6: an image animator is committed exactly when it is
paced this pass. -/
def specCommitIA (a : ImageAnimator) : Option (List Wallpaper) :=
  if (a.wallpapers.all fun w => w.drawReady) && !decide (1200 < a.timeToDraw) then
    some a.wallpapers
  else none

/-- Extract the committed wallpaper list from a draw event. -/
def commitsOf (e : DrawEvent) : Option (List Wallpaper) :=
  match e with
  | DrawEvent.commit ws => some ws
  | _ => none

/-- Extract the spin-sleep duration from a draw event. -/
def sleepsOf (e : DrawEvent) : Option Nat :=
  match e with
  | DrawEvent.spinSleep t => some t
  | _ => none

/-- Spec side of claim C6: a paced transition animator spin-sleeps its
residual time exactly when that residual is non-zero. -/
def specSleepTA (t : TransitionAnimator) : Option Nat :=
  if (t.wallpapers.all fun w => w.drawReady) && !decide (1200 < t.timeToDraw)
      && !decide (t.timeToDraw = 0) then
    some t.timeToDraw
  else none

/-- Spec side of claim C6: a paced image animator spin-sleeps its residual
time exactly when that residual is non-zero. -/
def specSleepIA (a : ImageAnimator) : Option Nat :=
  if (a.wallpapers.all fun w => w.drawReady) && !decide (1200 < a.timeToDraw)
      && !decide (a.timeToDraw = 0) then
    some a.timeToDraw
  else none

theorem drawStepTA_fst (t : TransitionAnimator) : (drawStepTA t).1 = specKeepTA t := by
  unfold drawStepTA specKeepTA TransitionAnimator.frame TransitionAnimator.updtTime
  by_cases h1 : (t.wallpapers.all fun w => w.drawReady) = true
  · by_cases h2 : 1200 < t.timeToDraw
    · simp [h1, h2]
    · by_cases h3 : t.over = true <;> simp [h1, h2, h3]
  · simp [h1]

theorem drawStepTA_flag (t : TransitionAnimator) : (drawStepTA t).2.2 = specSkipTA t := by
  unfold drawStepTA specSkipTA TransitionAnimator.frame TransitionAnimator.updtTime
  by_cases h1 : (t.wallpapers.all fun w => w.drawReady) = true
  · by_cases h2 : 1200 < t.timeToDraw
    · simp [h1, h2]
    · by_cases h3 : t.over = true <;> simp [h1, h2, h3]
  · simp [h1]

theorem drawStepTA_promotes (t : TransitionAnimator) :
    (drawStepTA t).2.1.filterMap promotedOf = (specPromoteTA t).toList := by
  unfold drawStepTA specPromoteTA TransitionAnimator.frame TransitionAnimator.updtTime
    TransitionAnimator.intoImageAnimator
  by_cases h1 : (t.wallpapers.all fun w => w.drawReady) = true
  · by_cases h2 : 1200 < t.timeToDraw
    · simp [h1, h2]
    · by_cases h3 : t.over = true
      · by_cases h4 : t.timeToDraw = 0 <;>
          cases ha : t.animation <;>
            simp [h1, h2, h3, h4, ha, promotedOf, List.filterMap_cons]
      · by_cases h4 : t.timeToDraw = 0 <;>
          simp [h1, h2, h3, h4, promotedOf, List.filterMap_cons]
  · simp [h1]

theorem drawStepTA_commits (t : TransitionAnimator) :
    (drawStepTA t).2.1.filterMap commitsOf = (specCommitTA t).toList := by
  unfold drawStepTA specCommitTA TransitionAnimator.frame TransitionAnimator.updtTime
    TransitionAnimator.intoImageAnimator
  by_cases h1 : (t.wallpapers.all fun w => w.drawReady) = true
  · by_cases h2 : 1200 < t.timeToDraw
    · simp [h1, h2]
    · by_cases h3 : t.over = true
      · by_cases h4 : t.timeToDraw = 0 <;>
          cases ha : t.animation <;>
            simp [h1, h2, h3, h4, ha, commitsOf, List.filterMap_cons]
      · by_cases h4 : t.timeToDraw = 0 <;>
          simp [h1, h2, h3, h4, commitsOf, List.filterMap_cons]
  · simp [h1]

theorem drawStepTA_sleeps (t : TransitionAnimator) :
    (drawStepTA t).2.1.filterMap sleepsOf = (specSleepTA t).toList := by
  unfold drawStepTA specSleepTA TransitionAnimator.frame TransitionAnimator.updtTime
    TransitionAnimator.intoImageAnimator
  by_cases h1 : (t.wallpapers.all fun w => w.drawReady) = true
  · by_cases h2 : 1200 < t.timeToDraw
    · simp [h1, h2]
    · by_cases h3 : t.over = true
      · by_cases h4 : t.timeToDraw = 0 <;>
          cases ha : t.animation <;>
            simp [h1, h2, h3, h4, ha, sleepsOf, List.filterMap_cons]
      · by_cases h4 : t.timeToDraw = 0 <;>
          simp [h1, h2, h3, h4, sleepsOf, List.filterMap_cons]
  · simp [h1]

theorem drawStepIA_fst (a : ImageAnimator) : (drawStepIA a).1 = specStepIA a := by
  unfold drawStepIA specStepIA
  by_cases h1 : (a.wallpapers.all fun w => w.drawReady) = true
  · by_cases h2 : 1200 < a.timeToDraw <;> simp [h1, h2]
  · simp [h1]

theorem drawStepIA_flag (a : ImageAnimator) : (drawStepIA a).2.2 = specSkipIA a := by
  unfold drawStepIA specSkipIA
  by_cases h1 : (a.wallpapers.all fun w => w.drawReady) = true
  · by_cases h2 : 1200 < a.timeToDraw <;> simp [h1, h2]
  · simp [h1]

theorem drawStepIA_sleeps (a : ImageAnimator) :
    (drawStepIA a).2.1.filterMap sleepsOf = (specSleepIA a).toList := by
  unfold drawStepIA specSleepIA
  by_cases h1 : (a.wallpapers.all fun w => w.drawReady) = true
  · by_cases h2 : 1200 < a.timeToDraw
    · simp [h1, h2]
    · by_cases h4 : a.timeToDraw = 0 <;>
        simp [h1, h2, h4, sleepsOf, List.filterMap_cons]
  · simp [h1]

theorem drawStepIA_commits (a : ImageAnimator) :
    (drawStepIA a).2.1.filterMap commitsOf = (specCommitIA a).toList := by
  unfold drawStepIA specCommitIA
  by_cases h1 : (a.wallpapers.all fun w => w.drawReady) = true
  · by_cases h2 : 1200 < a.timeToDraw
    · simp [h1, h2]
    · by_cases h4 : a.timeToDraw = 0 <;>
        simp [h1, h2, h4, commitsOf, List.filterMap_cons]
  · simp [h1]

/-- C6: in each draw pass, every transition animator whose wallpapers are all
draw-ready is skipped (scheduling `poll_time = 1`) when more than 1200 us
remain, and otherwise committed and stepped with `frame()`; a finished one is
removed from the transition list and promoted into an image animator iff the
request carried an animation. Image animators are paced identically, and
image animators with no wallpapers are removed. Concretely (up to the
reordering introduced by swap-remove): the surviving transition animators are
the `specKeepTA` images of the old ones, the image-animator list is the old
list plus the promotions, filtered of empty animators and paced by
`specStepIA`, `poll_time` is 1 when some processed animator was skipped and
-1 otherwise, and the set of commits is exactly the paced animators'
wallpaper lists. -/
theorem c6_draw_pass (d : Daemon) :
    ((d.draw).1.transitionAnimators ~ d.transitionAnimators.filterMap specKeepTA)
    ∧ ((d.draw).1.imageAnimators ~
        ((d.imageAnimators ++ d.transitionAnimators.filterMap specPromoteTA).filter
          fun a => !a.wallpapers.isEmpty).map specStepIA)
    ∧ ((d.draw).1.pollTime =
        if d.transitionAnimators.any specSkipTA
            || ((d.imageAnimators ++ d.transitionAnimators.filterMap specPromoteTA).filter
                fun a => !a.wallpapers.isEmpty).any specSkipIA
        then 1 else -1)
    ∧ ((d.draw).2.filterMap commitsOf ~
        d.transitionAnimators.filterMap specCommitTA
          ++ ((d.imageAnimators ++ d.transitionAnimators.filterMap specPromoteTA).filter
              fun a => !a.wallpapers.isEmpty).filterMap specCommitIA)
    ∧ ((d.draw).2.filterMap sleepsOf ~
        d.transitionAnimators.filterMap specSleepTA
          ++ ((d.imageAnimators ++ d.transitionAnimators.filterMap specPromoteTA).filter
              fun a => !a.wallpapers.isEmpty).filterMap specSleepIA) := by
  obtain ⟨hr1, hr2, hr3⟩ := sweep_spec drawStepTA d.transitionAnimators.length 0
    d.transitionAnimators (by omega)
  simp only [List.take_zero, List.drop_zero, List.nil_append] at hr1 hr2 hr3
  have hprom :
      (sweep drawStepTA d.transitionAnimators.length 0 d.transitionAnimators).2.1.filterMap
          promotedOf
        ~ d.transitionAnimators.filterMap specPromoteTA := by
    refine (hr2.filterMap promotedOf).trans ?_
    rw [flatMap_filterMap_comm]
    simp only [drawStepTA_promotes]
    rw [flatMap_option_toList]
  have himg0 :
      ((d.imageAnimators ++
          (sweep drawStepTA d.transitionAnimators.length 0 d.transitionAnimators).2.1.filterMap
            promotedOf).filter fun a => !a.wallpapers.isEmpty)
        ~ ((d.imageAnimators ++ d.transitionAnimators.filterMap specPromoteTA).filter
            fun a => !a.wallpapers.isEmpty) :=
    (List.Perm.append_left _ hprom).filter _
  refine ⟨?_, ?_, ?_, ?_, ?_⟩
  · refine hr1.trans ?_
    simp only [drawStepTA_fst]
    exact List.Perm.refl _
  · show ((((d.imageAnimators ++
        (sweep drawStepTA d.transitionAnimators.length 0 d.transitionAnimators).2.1.filterMap
          promotedOf).filter fun a => !a.wallpapers.isEmpty).map drawStepIA).map fun s => s.1)
      ~ _
    have hcomp : ((fun (s : ImageAnimator × List DrawEvent × Bool) => s.1) ∘ drawStepIA)
        = specStepIA := by
      funext a
      exact drawStepIA_fst a
    rw [List.map_map, hcomp]
    exact himg0.map specStepIA
  · show (if (sweep drawStepTA d.transitionAnimators.length 0 d.transitionAnimators).2.2 ||
        (((d.imageAnimators ++
            (sweep drawStepTA d.transitionAnimators.length 0 d.transitionAnimators).2.1.filterMap
              promotedOf).filter fun a => !a.wallpapers.isEmpty).map drawStepIA).any
          (fun s => s.2.2)
      then (1 : Int) else -1) = _
    have e1 : (sweep drawStepTA d.transitionAnimators.length 0 d.transitionAnimators).2.2
        = d.transitionAnimators.any specSkipTA := by
      rw [hr3]
      simp only [drawStepTA_flag]
    have hcomp2 : ((fun (s : ImageAnimator × List DrawEvent × Bool) => s.2.2) ∘ drawStepIA)
        = specSkipIA := by
      funext a
      exact drawStepIA_flag a
    have e2 : (((d.imageAnimators ++
          (sweep drawStepTA d.transitionAnimators.length 0 d.transitionAnimators).2.1.filterMap
            promotedOf).filter fun a => !a.wallpapers.isEmpty).map drawStepIA).any
          (fun s => s.2.2)
        = ((d.imageAnimators ++ d.transitionAnimators.filterMap specPromoteTA).filter
            fun a => !a.wallpapers.isEmpty).any specSkipIA := by
      rw [any_map_general]
      have : (fun a => ((fun (s : ImageAnimator × List DrawEvent × Bool) => s.2.2) (drawStepIA a)))
          = specSkipIA := by
        funext a
        exact drawStepIA_flag a
      rw [this]
      exact perm_any_eq himg0 specSkipIA
    rw [e1, e2]
  · show (((sweep drawStepTA d.transitionAnimators.length 0 d.transitionAnimators).2.1 ++
        (((d.imageAnimators ++
            (sweep drawStepTA d.transitionAnimators.length 0 d.transitionAnimators).2.1.filterMap
              promotedOf).filter fun a => !a.wallpapers.isEmpty).map drawStepIA).flatMap
          fun s => s.2.1).filterMap commitsOf) ~ _
    rw [List.filterMap_append]
    refine List.Perm.append ?_ ?_
    · refine (hr2.filterMap commitsOf).trans ?_
      rw [flatMap_filterMap_comm]
      simp only [drawStepTA_commits]
      rw [flatMap_option_toList]
    · rw [List.flatMap_map, flatMap_filterMap_comm]
      simp only [drawStepIA_commits]
      rw [flatMap_option_toList]
      exact himg0.filterMap specCommitIA
  · show (((sweep drawStepTA d.transitionAnimators.length 0 d.transitionAnimators).2.1 ++
        (((d.imageAnimators ++
            (sweep drawStepTA d.transitionAnimators.length 0 d.transitionAnimators).2.1.filterMap
              promotedOf).filter fun a => !a.wallpapers.isEmpty).map drawStepIA).flatMap
          fun s => s.2.1).filterMap sleepsOf) ~ _
    rw [List.filterMap_append]
    refine List.Perm.append ?_ ?_
    · refine (hr2.filterMap sleepsOf).trans ?_
      rw [flatMap_filterMap_comm]
      simp only [drawStepTA_sleeps]
      rw [flatMap_option_toList]
    · rw [List.flatMap_map, flatMap_filterMap_comm]
      simp only [drawStepIA_sleeps]
      rw [flatMap_option_toList]
      exact himg0.filterMap specSleepIA
